import Mathlib

/-
Verification of the esp32-mqtt-tank-monitor repository.

Shallow embedding of the volume computation engine (tank_profiles.py),
the sensor reading and calibration paths, and the monitor loop's fault
accounting, restart escalation and publish gating (mqtt_tank_monitor.py).
Python floats are modelled as exact rationals; fallible operations return
Option values; the stateful monitor loop is modelled as explicit step
functions on small state records, with the externally visible actions of
the escalation path (watchdog feeds, sleeps, machine reset) recorded as an
event trace.
-/

/-! ### Constants (mqtt_tank_monitor.py, lines 22-31) -/

def SENSOR_MIN_READING_MM : ℚ := 0

def SENSOR_MAX_READING_MM : ℚ := 8000

def MM_TO_INCHES : ℚ := 254 / 10

def MAX_CONSECUTIVE_FAILURES : ℕ := 10

def RESTART_COOLDOWN_SEC : ℚ := 60

/-! ### Volume engine (tank_profiles.py) -/

/-- Linear interpolation between two points (tank_profiles.py, linear_interpolate).
Returns y0 when the interval is degenerate, exactly as the source does. -/
def linear_interpolate (x x0 x1 y0 y1 : ℚ) : ℚ :=
  if x1 = x0 then y0
  else y0 + (x - x0) * (y1 - y0) / (x1 - x0)

/-- Bracket search shared by depth_to_gallons and gallons_to_depth: the
source iterates i over range(len(table) - 1) and returns the interpolation
on the first interval with table[i] <= v <= table[i+1], falling through to
None. The recursion walks both tables in lockstep, which agrees with the
source's index-based loop whenever the tables have equal length (the
callers' precondition; an unequal length would raise IndexError in Python). -/
def findBracket (v : ℚ) : List ℚ → List ℚ → Option ℚ
  | x0 :: x1 :: xs, y0 :: y1 :: ys =>
    if x0 ≤ v ∧ v ≤ x1 then some (linear_interpolate v x0 x1 y0 y1)
    else findBracket v (x1 :: xs) (y1 :: ys)
  | _, _ => none

/-- Tank profile record (tank_profiles.py dictionaries). The name, width and
length entries are presentation metadata never read by any computation and
are omitted. -/
structure TankProfile where
  capacity_gallons : ℚ
  height_inches : ℚ
  depth_inches : List ℚ
  gallons : List ℚ

/-- Last element of a list, 0 for the empty list. Models Python's table[-1]
on the nonempty tables the callers require (Python raises on an empty one). -/
def lastD : List ℚ → ℚ
  | [] => 0
  | [x] => x
  | _ :: x :: xs => lastD (x :: xs)

/-- Head of a list, 0 for the empty list. -/
def headD : List ℚ → ℚ
  | [] => 0
  | x :: _ => x

/-- Strictly ascending adjacent entries (the well-formedness condition on a
profile's depth table). -/
def chainLt : List ℚ → Prop
  | x0 :: x1 :: xs => x0 < x1 ∧ chainLt (x1 :: xs)
  | _ => True

/-- Non-decreasing adjacent entries. -/
def chainLe : List ℚ → Prop
  | x0 :: x1 :: xs => x0 ≤ x1 ∧ chainLe (x1 :: xs)
  | _ => True

/-- The value d lies strictly between some pair of adjacent table entries. -/
def strictlyInside (d : ℚ) : List ℚ → Prop
  | x0 :: x1 :: xs => (x0 < d ∧ d < x1) ∨ strictlyInside d (x1 :: xs)
  | _ => False

/-- Convert liquid depth to gallons (tank_profiles.py, depth_to_gallons):
0 for depth <= 0, saturation at the last table volume for depth >= the last
table depth, otherwise the bracket search (None on fall-through). -/
def depth_to_gallons (depth_inches : ℚ) (p : TankProfile) : Option ℚ :=
  if depth_inches ≤ 0 then some 0
  else if lastD p.depth_inches ≤ depth_inches then some (lastD p.gallons)
  else findBracket depth_inches p.depth_inches p.gallons

/-- Convert gallons to depth (tank_profiles.py, gallons_to_depth): the
symmetric reverse lookup. -/
def gallons_to_depth (gallons : ℚ) (p : TankProfile) : Option ℚ :=
  if gallons ≤ 0 then some 0
  else if lastD p.gallons ≤ gallons then some (lastD p.depth_inches)
  else findBracket gallons p.gallons p.depth_inches

/-- Reference 44-point table of the 275 gallon vertical oval tank
(tank_profiles.py, TANK_275_VERTICAL_OVAL). -/
def TANK_275_VERTICAL_OVAL : TankProfile where
  capacity_gallons := 275
  height_inches := 44
  depth_inches := [1, 2, 3, 4, 5, 6, 7, 8, 9, 10,
    11, 12, 13, 14, 15, 16, 17, 18, 19, 20,
    21, 22, 23, 24, 25, 26, 27, 28, 29, 30,
    31, 32, 33, 34, 35, 36, 37, 38, 39, 40,
    41, 42, 43, 44]
  gallons := [2, 5, 9, 14, 19, 25, 31, 37, 44, 51,
    58, 65, 72, 80, 87, 94, 101, 108, 115, 123,
    130, 137, 144, 151, 158, 166, 173, 180, 187, 194,
    201, 209, 216, 223, 230, 236, 243, 249, 254, 260,
    265, 269, 272, 275]

/-- Profile whose tables satisfy the well-formedness stated in claim C4
(depth table strictly ascending, paired 1:1, length 2) but whose volume
table decreases. Used only to exhibit non-monotonicity. -/
def profileDecreasingGallons : TankProfile where
  capacity_gallons := 5
  height_inches := 2
  depth_inches := [1, 2]
  gallons := [5, 2]

/-- Profile with a non-decreasing but negative volume table. Used only to
exhibit non-monotonicity against the zero returned at depth 0. -/
def profileNegativeGallons : TankProfile where
  capacity_gallons := -2
  height_inches := 2
  depth_inches := [1, 2]
  gallons := [-5, -2]

/-! ### Sensor reading (mqtt_tank_monitor.py, read_tank_level) -/

/-- Tank configuration snapshot (config_manager.py, get_tank_config). -/
structure TankConfig where
  height : ℚ
  calibration_offset : ℚ
  empty_level : ℚ
deriving DecidableEq

/-- Computed reading of one cycle (the dictionary built by read_tank_level).
The timestamp entry is the wall clock at the read and plays no role in any
computation, so it is omitted. -/
structure Reading where
  distance_mm : ℚ
  distance_inches : ℚ
  level_inches : ℚ
  level_percentage : ℚ
  gallons : Option ℚ
deriving DecidableEq

/-- Round half to even on integers scaled from a rational (the rounding mode
of Python's round builtin, idealized over exact rationals). -/
def pyRoundInt (q : ℚ) : ℤ :=
  if q - q.floor < 1 / 2 then q.floor
  else if 1 / 2 < q - q.floor then q.floor + 1
  else if q.floor % 2 = 0 then q.floor else q.floor + 1

/-- Python's round(q, ndigits) over exact rationals. -/
def pyRound (ndigits : ℕ) (q : ℚ) : ℚ :=
  (pyRoundInt (q * 10 ^ ndigits) : ℚ) / 10 ^ ndigits

/-- Read and validate one sensor sample and compute the reading
(mqtt_tank_monitor.py, read_tank_level). A sample of none models the sensor
returning None (or the read raising). A sample <= SENSOR_MIN_READING_MM or
> SENSOR_MAX_READING_MM is rejected. The depth is clamped to the interval
from empty_level to height. With a profile, the gallons lookup may return
none, in which case the percentage expression in the source raises a
TypeError that the surrounding handler turns into a None result; that path
is the none branch of percentage below. Without a profile the legacy linear
percentage is used. -/
def read_tank_level (sample : Option ℚ) (cfg : TankConfig)
    (profile : Option TankProfile) : Option Reading :=
  match sample with
  | none => none
  | some distance_mm =>
    if distance_mm ≤ SENSOR_MIN_READING_MM ∨ SENSOR_MAX_READING_MM < distance_mm then
      none
    else
      let distance_inches := distance_mm / MM_TO_INCHES
      let liquid_depth :=
        max cfg.empty_level
          (min (cfg.height - distance_inches + cfg.calibration_offset) cfg.height)
      match profile with
      | some p =>
        let gallons := depth_to_gallons liquid_depth p
        let percentage : Option ℚ :=
          if 0 < p.capacity_gallons then
            gallons.map (fun g => g / p.capacity_gallons * 100)
          else some 0
        match percentage with
        | none => none
        | some pct =>
          some { distance_mm := pyRound 1 distance_mm
                 distance_inches := pyRound 2 distance_inches
                 level_inches := pyRound 2 liquid_depth
                 level_percentage := pyRound 1 pct
                 gallons := gallons.map (pyRound 1) }
      | none =>
        let pct := if 0 < cfg.height then liquid_depth / cfg.height * 100 else 0
        some { distance_mm := pyRound 1 distance_mm
               distance_inches := pyRound 2 distance_inches
               level_inches := pyRound 2 liquid_depth
               level_percentage := pyRound 1 pct
               gallons := none }

/-- Clamped liquid depth computed inside read_tank_level for a raw sample:
height minus the distance in inches plus the calibration offset,
constrained to the interval from empty_level to height (the let-bound
liquid_depth of the source). -/
def clamped_depth (distance_mm : ℚ) (cfg : TankConfig) : ℚ :=
  max cfg.empty_level
    (min (cfg.height - distance_mm / MM_TO_INCHES + cfg.calibration_offset) cfg.height)

/-! ### Calibration (mqtt_tank_monitor.py, calibrate_empty) -/

/-- Empty-tank calibration (mqtt_tank_monitor.py, calibrate_empty). Each
sample is none for a failed or None read, some d for a raw distance d; a
sample is kept when it is present and strictly positive. With fewer kept
readings than num_readings div 2 the procedure returns False and the
configuration is untouched; otherwise the offset height - average distance
in inches is stored through update_calibration_offset (modelled as the
returned configuration, assuming the save succeeds). -/
def calibrate_empty (samples : List (Option ℚ)) (num_readings : ℕ)
    (cfg : TankConfig) : Bool × TankConfig :=
  let readings := samples.filterMap (fun s =>
    s.bind (fun d => if 0 < d then some d else none))
  if readings.length < num_readings / 2 then (false, cfg)
  else
    let avg_distance_mm := readings.sum / (readings.length : ℚ)
    let avg_distance_inches := avg_distance_mm / (254 / 10)
    let calibration_offset := cfg.height - avg_distance_inches
    (true, { cfg with calibration_offset := calibration_offset })

/-! ### Monitor loop fault accounting (mqtt_tank_monitor.py, monitor_loop,
lines 665-731) -/

/-- Outcome of one monitor cycle as seen by the fault accounting: the
periodic WiFi check failed (the sensor is then not read this cycle), or the
WiFi check passed and the sensor read failed, or the WiFi check passed and a
valid reading was produced. -/
inductive CycleOutcome where
  | wifiFail : CycleOutcome
  | sensorFail : CycleOutcome
  | sensorOk : CycleOutcome
deriving DecidableEq

/-- Fault-accounting state of the monitor loop: the single
consecutive_failures counter and whether machine.reset has been invoked
(after which no further cycle executes). -/
structure LoopState where
  failures : ℕ
  restarted : Bool
deriving DecidableEq

/-- Fault accounting of one cycle of monitor_loop: a failed WiFi check
increments consecutive_failures and restarts at MAX_CONSECUTIVE_FAILURES; a
failed sensor read does the same to the same counter; a valid reading
resets the counter to 0. -/
def cycleStep (s : LoopState) (o : CycleOutcome) : LoopState :=
  if s.restarted then s
  else
    match o with
    | CycleOutcome.wifiFail =>
      { failures := s.failures + 1
        restarted := decide (MAX_CONSECUTIVE_FAILURES ≤ s.failures + 1) }
    | CycleOutcome.sensorFail =>
      { failures := s.failures + 1
        restarted := decide (MAX_CONSECUTIVE_FAILURES ≤ s.failures + 1) }
    | CycleOutcome.sensorOk =>
      { failures := 0, restarted := false }

/-- Fault accounting over a sequence of cycles. -/
def runCycles (s : LoopState) (l : List CycleOutcome) : LoopState :=
  l.foldl cycleStep s

/-- State of the fault policy as the specification describes it: one
consecutive-failure counter per failure domain. -/
structure SpecFaultState where
  sensorFailures : ℕ
  connFailures : ℕ
  restarted : Bool
deriving DecidableEq

/-- Two-counter fault policy following the specification's words, for
comparison with the implemented cycleStep: each domain has its own
consecutive-failure counter; a failure in a domain increments only that
domain's counter, a success in a domain resets only that domain's counter,
and a restart triggers when either counter reaches the ceiling. In a
sensorFail cycle the connectivity check succeeded, so the connectivity
counter resets while the sensor counter increments; in a wifiFail cycle the
sensor is not read, so the sensor counter is untouched. -/
def specTwoCounterStep (s : SpecFaultState) (o : CycleOutcome) : SpecFaultState :=
  if s.restarted then s
  else
    match o with
    | CycleOutcome.wifiFail =>
      { s with connFailures := s.connFailures + 1
               restarted := decide (MAX_CONSECUTIVE_FAILURES ≤ s.connFailures + 1) }
    | CycleOutcome.sensorFail =>
      { sensorFailures := s.sensorFailures + 1
        connFailures := 0
        restarted := decide (MAX_CONSECUTIVE_FAILURES ≤ s.sensorFailures + 1) }
    | CycleOutcome.sensorOk =>
      { sensorFailures := 0, connFailures := 0, restarted := false }

/-- Two-counter policy over a sequence of cycles. -/
def runSpecCycles (s : SpecFaultState) (l : List CycleOutcome) : SpecFaultState :=
  l.foldl specTwoCounterStep s

/-! ### Restart escalation trace (mqtt_tank_monitor.py, lines 684-692 and
723-731) -/

/-- Externally visible actions of the escalation path: a watchdog feed, a
sleep of a given duration in seconds, the machine reset. -/
inductive MonEv where
  | feed : MonEv
  | sleep : ℚ → MonEv
  | reset : MonEv
deriving DecidableEq

/-- Action trace of the restart escalation once the failure ceiling is
reached: when less than RESTART_COOLDOWN_SEC has elapsed since
last_restart_time, sleep exactly the remaining cooldown, then reset;
otherwise reset at once. This is the verbatim control flow of lines
684-692 (and its copy at 723-731): the wait is a single time.sleep with no
watchdog interaction. -/
def restartEscalation (now lastRestart : ℚ) : List MonEv :=
  if now - lastRestart < RESTART_COOLDOWN_SEC then
    [MonEv.sleep (RESTART_COOLDOWN_SEC - (now - lastRestart)), MonEv.reset]
  else
    [MonEv.reset]

/-- Escalation guard of the failure branches: the escalation runs only when
consecutive_failures has reached MAX_CONSECUTIVE_FAILURES; below the
ceiling the branch emits no action. -/
def failEscalation (failures : ℕ) (now lastRestart : ℚ) : List MonEv :=
  if MAX_CONSECUTIVE_FAILURES ≤ failures then restartEscalation now lastRestart
  else []

/-! ### Publish gating (mqtt_tank_monitor.py, lines 707-717) -/

/-- One publish decision of monitor_loop: publish when at least
publish_interval has elapsed since last_publish, in which case last_publish
becomes the current time (the publish is assumed to succeed; on success the
source sets self.last_publish = current_time). -/
def publishStep (publish_interval lastPublish now : ℚ) : ℚ :=
  if publish_interval ≤ now - lastPublish then now else lastPublish

/-- Value of last_publish before cycle k, for cycles at times t0 + mi * k
with every produced reading valid and every attempted publish successful. -/
def lastPublishBefore (publish_interval lp0 t0 mi : ℚ) : ℕ → ℚ
  | 0 => lp0
  | k + 1 =>
    publishStep publish_interval (lastPublishBefore publish_interval lp0 t0 mi k)
      (t0 + mi * k)

/-- Cycle k publishes its reading to the broker. -/
def publishesAt (publish_interval lp0 t0 mi : ℚ) (k : ℕ) : Prop :=
  publish_interval ≤ (t0 + mi * k) - lastPublishBefore publish_interval lp0 t0 mi k

/-! ### Helper lemmas: chains, lastD, interpolation -/

theorem chainLt_cons {x0 x1 : ℚ} {xs : List ℚ} :
    chainLt (x0 :: x1 :: xs) ↔ x0 < x1 ∧ chainLt (x1 :: xs) := Iff.rfl

theorem chainLe_cons {x0 x1 : ℚ} {xs : List ℚ} :
    chainLe (x0 :: x1 :: xs) ↔ x0 ≤ x1 ∧ chainLe (x1 :: xs) := Iff.rfl

theorem chainLt_chainLe : ∀ (l : List ℚ), chainLt l → chainLe l
  | [], _ => trivial
  | [_], _ => trivial
  | _ :: x1 :: xs, h =>
    ⟨le_of_lt h.1, chainLt_chainLe (x1 :: xs) h.2⟩

theorem lastD_cons (x0 x1 : ℚ) (xs : List ℚ) :
    lastD (x0 :: x1 :: xs) = lastD (x1 :: xs) := rfl

theorem chainLe_head_lastD : ∀ (ys : List ℚ) (y : ℚ), chainLe (y :: ys) → y ≤ lastD (y :: ys)
  | [], y, _ => le_refl y
  | y1 :: ys, y, h =>
    le_trans h.1 (chainLe_head_lastD ys y1 h.2)

theorem chainLe_mem_lastD : ∀ (l : List ℚ), chainLe l → ∀ y ∈ l, y ≤ lastD l
  | [], _, _, hy => absurd hy (List.not_mem_nil _)
  | [x], _, y, hy => by
    rcases List.mem_singleton.mp hy with rfl
    exact le_refl y
  | x0 :: x1 :: xs, h, y, hy => by
    rcases List.mem_cons.mp hy with rfl | hy'
    · exact chainLe_head_lastD (x1 :: xs) y h
    · rw [lastD_cons]
      exact chainLe_mem_lastD (x1 :: xs) h.2 y hy'

theorem linear_interpolate_left (x0 x1 y0 y1 : ℚ) :
    linear_interpolate x0 x0 x1 y0 y1 = y0 := by
  unfold linear_interpolate
  by_cases h : x1 = x0
  · rw [if_pos h]
  · rw [if_neg h]
    ring

theorem linear_interpolate_right {x0 x1 : ℚ} (y0 y1 : ℚ) (h : x0 < x1) :
    linear_interpolate x1 x0 x1 y0 y1 = y1 := by
  unfold linear_interpolate
  rw [if_neg (ne_of_gt h)]
  have h0 : x1 - x0 ≠ 0 := sub_ne_zero.mpr (ne_of_gt h)
  field_simp

theorem linear_interpolate_mono {x0 x1 y0 y1 a b : ℚ}
    (hx : x0 < x1) (hy : y0 ≤ y1) (hab : a ≤ b) :
    linear_interpolate a x0 x1 y0 y1 ≤ linear_interpolate b x0 x1 y0 y1 := by
  unfold linear_interpolate
  rw [if_neg (ne_of_gt hx), if_neg (ne_of_gt hx)]
  have hc : (0 : ℚ) < x1 - x0 := by linarith
  have hnum : (a - x0) * (y1 - y0) ≤ (b - x0) * (y1 - y0) := by nlinarith
  rw [div_eq_mul_inv, div_eq_mul_inv]
  have hinv : (0 : ℚ) ≤ (x1 - x0)⁻¹ := inv_nonneg.mpr (le_of_lt hc)
  have := mul_le_mul_of_nonneg_right hnum hinv
  linarith

theorem linear_interpolate_le_right {x0 x1 y0 y1 d : ℚ}
    (hx : x0 < x1) (hy : y0 ≤ y1) (hd : d ≤ x1) :
    linear_interpolate d x0 x1 y0 y1 ≤ y1 := by
  have := linear_interpolate_mono (a := d) (b := x1) hx hy hd
  rwa [linear_interpolate_right y0 y1 hx] at this

theorem linear_interpolate_ge_left {x0 x1 y0 y1 d : ℚ}
    (hx : x0 < x1) (hy : y0 ≤ y1) (hd : x0 ≤ d) :
    y0 ≤ linear_interpolate d x0 x1 y0 y1 := by
  have := linear_interpolate_mono (a := x0) (b := d) hx hy hd
  rwa [linear_interpolate_left x0 x1 y0 y1] at this

theorem linear_interpolate_gt_left {x0 x1 y0 y1 d : ℚ}
    (hx : x0 < x1) (hy : y0 < y1) (hd : x0 < d) :
    y0 < linear_interpolate d x0 x1 y0 y1 := by
  unfold linear_interpolate
  rw [if_neg (ne_of_gt hx)]
  have hc : (0 : ℚ) < x1 - x0 := by linarith
  have : 0 < (d - x0) * (y1 - y0) / (x1 - x0) :=
    div_pos (mul_pos (by linarith) (by linarith)) hc
  linarith

theorem linear_interpolate_lt_right {x0 x1 y0 y1 d : ℚ}
    (hx : x0 < x1) (hy : y0 < y1) (hd : d < x1) :
    linear_interpolate d x0 x1 y0 y1 < y1 := by
  unfold linear_interpolate
  rw [if_neg (ne_of_gt hx)]
  have hc : (0 : ℚ) < x1 - x0 := by linarith
  have key : y1 - (y0 + (d - x0) * (y1 - y0) / (x1 - x0))
      = (x1 - d) * (y1 - y0) / (x1 - x0) := by
    field_simp
    ring
  have hpos : 0 < (x1 - d) * (y1 - y0) / (x1 - x0) :=
    div_pos (mul_pos (by linarith) (by linarith)) hc
  linarith

theorem linear_interpolate_inverse {x0 x1 y0 y1 : ℚ} (d : ℚ)
    (hx : x0 < x1) (hy : y0 < y1) :
    linear_interpolate (linear_interpolate d x0 x1 y0 y1) y0 y1 x0 x1 = d := by
  unfold linear_interpolate
  rw [if_neg (ne_of_gt hx), if_neg (ne_of_gt hy)]
  have hcx : x1 - x0 ≠ 0 := by intro h; apply absurd hx; simp [sub_eq_zero.mp h]
  have hcy : y1 - y0 ≠ 0 := by intro h; apply absurd hy; simp [sub_eq_zero.mp h]
  field_simp
  ring

/-! ### Helper lemmas: findBracket -/

theorem findBracket_cons (v x0 x1 y0 y1 : ℚ) (xs ys : List ℚ) :
    findBracket v (x0 :: x1 :: xs) (y0 :: y1 :: ys) =
      if x0 ≤ v ∧ v ≤ x1 then some (linear_interpolate v x0 x1 y0 y1)
      else findBracket v (x1 :: xs) (y1 :: ys) := rfl

theorem findBracket_left_nil (v : ℚ) (ys : List ℚ) : findBracket v [] ys = none := rfl

theorem findBracket_left_single (v x : ℚ) (ys : List ℚ) :
    findBracket v [x] ys = none := rfl

theorem findBracket_right_nil (v : ℚ) (xs : List ℚ) : findBracket v xs [] = none := by
  rcases xs with _ | ⟨x, _ | ⟨x1, t⟩⟩ <;> rfl

theorem findBracket_right_single (v y : ℚ) (xs : List ℚ) :
    findBracket v xs [y] = none := by
  rcases xs with _ | ⟨x, _ | ⟨x1, t⟩⟩ <;> rfl

theorem findBracket_ge_head :
    ∀ (xs : List ℚ) (x0 : ℚ) (ys : List ℚ) (y0 : ℚ) (d v : ℚ),
      chainLt (x0 :: xs) → chainLe (y0 :: ys) → x0 ≤ d →
      findBracket d (x0 :: xs) (y0 :: ys) = some v → y0 ≤ v := by
  intro xs
  induction xs with
  | nil =>
    intro x0 ys y0 d v _ _ _ hfb
    rw [findBracket_left_single] at hfb
    exact Option.noConfusion hfb
  | cons x1 xs ih =>
    intro x0 ys y0 d v hcx hcy hx0 hfb
    cases ys with
    | nil =>
      rw [findBracket_right_single] at hfb
      exact Option.noConfusion hfb
    | cons y1 ys =>
      obtain ⟨h01x, hcx'⟩ := chainLt_cons.mp hcx
      obtain ⟨h01y, hcy'⟩ := chainLe_cons.mp hcy
      rw [findBracket_cons] at hfb
      by_cases hcond : x0 ≤ d ∧ d ≤ x1
      · rw [if_pos hcond] at hfb
        have hv := Option.some.inj hfb
        rw [← hv]
        exact linear_interpolate_ge_left h01x h01y hx0
      · rw [if_neg hcond] at hfb
        have hx1d : x1 ≤ d := by
          rcases not_and_or.mp hcond with h | h
          · exact absurd hx0 h
          · exact le_of_lt (lt_of_not_le h)
        exact le_trans h01y (ih x1 ys y1 d v hcx' hcy' hx1d hfb)

theorem findBracket_gt_head :
    ∀ (xs : List ℚ) (x0 : ℚ) (ys : List ℚ) (y0 : ℚ) (d v : ℚ),
      chainLt (x0 :: xs) → chainLt (y0 :: ys) → x0 < d →
      findBracket d (x0 :: xs) (y0 :: ys) = some v → y0 < v := by
  intro xs
  induction xs with
  | nil =>
    intro x0 ys y0 d v _ _ _ hfb
    rw [findBracket_left_single] at hfb
    exact Option.noConfusion hfb
  | cons x1 xs ih =>
    intro x0 ys y0 d v hcx hcy hx0 hfb
    cases ys with
    | nil =>
      rw [findBracket_right_single] at hfb
      exact Option.noConfusion hfb
    | cons y1 ys =>
      obtain ⟨h01x, hcx'⟩ := chainLt_cons.mp hcx
      obtain ⟨h01y, hcy'⟩ := chainLt_cons.mp hcy
      rw [findBracket_cons] at hfb
      by_cases hcond : x0 ≤ d ∧ d ≤ x1
      · rw [if_pos hcond] at hfb
        have hv := Option.some.inj hfb
        rw [← hv]
        exact linear_interpolate_gt_left h01x h01y hx0
      · rw [if_neg hcond] at hfb
        have hx1d : x1 < d := by
          rcases not_and_or.mp hcond with h | h
          · exact absurd (le_of_lt hx0) h
          · exact lt_of_not_le h
        exact lt_trans h01y (ih x1 ys y1 d v hcx' hcy' hx1d hfb)

theorem findBracket_le_lastD :
    ∀ (xs : List ℚ) (x0 : ℚ) (ys : List ℚ) (y0 : ℚ) (d v : ℚ),
      chainLt (x0 :: xs) → chainLe (y0 :: ys) →
      findBracket d (x0 :: xs) (y0 :: ys) = some v → v ≤ lastD (y0 :: ys) := by
  intro xs
  induction xs with
  | nil =>
    intro x0 ys y0 d v _ _ hfb
    rw [findBracket_left_single] at hfb
    exact Option.noConfusion hfb
  | cons x1 xs ih =>
    intro x0 ys y0 d v hcx hcy hfb
    cases ys with
    | nil =>
      rw [findBracket_right_single] at hfb
      exact Option.noConfusion hfb
    | cons y1 ys =>
      obtain ⟨h01x, hcx'⟩ := chainLt_cons.mp hcx
      obtain ⟨h01y, hcy'⟩ := chainLe_cons.mp hcy
      rw [findBracket_cons] at hfb
      rw [lastD_cons]
      by_cases hcond : x0 ≤ d ∧ d ≤ x1
      · rw [if_pos hcond] at hfb
        have hv := Option.some.inj hfb
        rw [← hv]
        exact le_trans (linear_interpolate_le_right h01x h01y hcond.2)
          (chainLe_head_lastD ys y1 hcy')
      · rw [if_neg hcond] at hfb
        exact ih x1 ys y1 d v hcx' hcy' hfb

theorem findBracket_isSome :
    ∀ (xs : List ℚ) (x0 : ℚ) (ys : List ℚ) (y0 : ℚ) (d : ℚ),
      (x0 :: xs).length = (y0 :: ys).length →
      x0 ≤ d → d < lastD (x0 :: xs) →
      ∃ v, findBracket d (x0 :: xs) (y0 :: ys) = some v := by
  intro xs
  induction xs with
  | nil =>
    intro x0 ys y0 d _ hx0 hlt
    exact absurd (lt_of_le_of_lt hx0 hlt) (lt_irrefl x0)
  | cons x1 xs ih =>
    intro x0 ys y0 d hlen hx0 hlt
    cases ys with
    | nil => simp at hlen
    | cons y1 ys =>
      by_cases hd1 : d ≤ x1
      · exact ⟨_, by rw [findBracket_cons, if_pos ⟨hx0, hd1⟩]⟩
      · have hlen' : (x1 :: xs).length = (y1 :: ys).length := by
          simpa using hlen
        have hlast : d < lastD (x1 :: xs) := by rwa [lastD_cons] at hlt
        obtain ⟨v, hv⟩ := ih x1 ys y1 d hlen' (le_of_not_le hd1) hlast
        refine ⟨v, ?_⟩
        rw [findBracket_cons, if_neg (fun hc => hd1 hc.2)]
        exact hv

theorem findBracket_mono :
    ∀ (xs : List ℚ) (x0 : ℚ) (ys : List ℚ) (y0 : ℚ) (d1 d2 v1 v2 : ℚ),
      chainLt (x0 :: xs) → chainLe (y0 :: ys) →
      x0 ≤ d1 → d1 ≤ d2 →
      findBracket d1 (x0 :: xs) (y0 :: ys) = some v1 →
      findBracket d2 (x0 :: xs) (y0 :: ys) = some v2 →
      v1 ≤ v2 := by
  intro xs
  induction xs with
  | nil =>
    intro x0 ys y0 d1 d2 v1 v2 _ _ _ _ hfb1 _
    rw [findBracket_left_single] at hfb1
    exact Option.noConfusion hfb1
  | cons x1 xs ih =>
    intro x0 ys y0 d1 d2 v1 v2 hcx hcy hx0 hd hfb1 hfb2
    cases ys with
    | nil =>
      rw [findBracket_right_single] at hfb1
      exact Option.noConfusion hfb1
    | cons y1 ys =>
      obtain ⟨h01x, hcx'⟩ := chainLt_cons.mp hcx
      obtain ⟨h01y, hcy'⟩ := chainLe_cons.mp hcy
      rw [findBracket_cons] at hfb1 hfb2
      by_cases h1 : d1 ≤ x1
      · rw [if_pos ⟨hx0, h1⟩] at hfb1
        have hv1 := Option.some.inj hfb1
        by_cases h2 : d2 ≤ x1
        · rw [if_pos ⟨le_trans hx0 hd, h2⟩] at hfb2
          have hv2 := Option.some.inj hfb2
          rw [← hv1, ← hv2]
          exact linear_interpolate_mono h01x h01y hd
        · rw [if_neg (fun hc => h2 hc.2)] at hfb2
          have hub : v1 ≤ y1 := by
            rw [← hv1]
            exact linear_interpolate_le_right h01x h01y h1
          have hlb : y1 ≤ v2 :=
            findBracket_ge_head xs x1 ys y1 d2 v2 hcx' hcy' (le_of_not_le h2) hfb2
          exact le_trans hub hlb
      · rw [if_neg (fun hc => h1 hc.2)] at hfb1
        rw [if_neg (fun hc => h1 (le_trans hd hc.2))] at hfb2
        exact ih x1 ys y1 d1 d2 v1 v2 hcx' hcy' (le_of_not_le h1) hd hfb1 hfb2

theorem findBracket_none_of_lt_head :
    ∀ (xs : List ℚ) (x0 : ℚ) (ys : List ℚ) (d : ℚ),
      chainLt (x0 :: xs) → d < x0 → findBracket d (x0 :: xs) ys = none := by
  intro xs
  induction xs with
  | nil =>
    intro x0 ys d _ _
    exact findBracket_left_single d x0 ys
  | cons x1 xs ih =>
    intro x0 ys d hcx hd
    cases ys with
    | nil => exact findBracket_right_nil d _
    | cons y1 ys =>
      cases ys with
      | nil => exact findBracket_right_single d y1 _
      | cons y2 ys =>
        obtain ⟨h01x, hcx'⟩ := chainLt_cons.mp hcx
        rw [findBracket_cons, if_neg (fun hc => absurd hc.1 (not_le.mpr hd))]
        exact ih x1 (y2 :: ys) d hcx' (lt_trans hd h01x)

/-! ### Helper lemmas: strictlyInside and the round trip -/

theorem strictlyInside_cons {d x0 x1 : ℚ} {xs : List ℚ} :
    strictlyInside d (x0 :: x1 :: xs) ↔ (x0 < d ∧ d < x1) ∨ strictlyInside d (x1 :: xs) :=
  Iff.rfl

theorem strictlyInside_single (d x : ℚ) : ¬ strictlyInside d [x] := fun h => h

theorem strictlyInside_head_lt :
    ∀ (xs : List ℚ) (x0 d : ℚ), chainLt (x0 :: xs) → strictlyInside d (x0 :: xs) → x0 < d := by
  intro xs
  induction xs with
  | nil => intro x0 d _ hin; exact absurd hin (strictlyInside_single d x0)
  | cons x1 xs ih =>
    intro x0 d hcx hin
    obtain ⟨h01x, hcx'⟩ := chainLt_cons.mp hcx
    rcases strictlyInside_cons.mp hin with ⟨h, _⟩ | hin'
    · exact h
    · exact lt_trans h01x (ih x1 d hcx' hin')

theorem strictlyInside_lt_lastD :
    ∀ (xs : List ℚ) (x0 d : ℚ), chainLt (x0 :: xs) → strictlyInside d (x0 :: xs) →
      d < lastD (x0 :: xs) := by
  intro xs
  induction xs with
  | nil => intro x0 d _ hin; exact absurd hin (strictlyInside_single d x0)
  | cons x1 xs ih =>
    intro x0 d hcx hin
    obtain ⟨h01x, hcx'⟩ := chainLt_cons.mp hcx
    rw [lastD_cons]
    rcases strictlyInside_cons.mp hin with ⟨_, h⟩ | hin'
    · exact lt_of_lt_of_le h (chainLe_head_lastD xs x1 (chainLt_chainLe _ hcx'))
    · exact ih x1 d hcx' hin'

theorem findBracket_round_trip :
    ∀ (xs : List ℚ) (x0 : ℚ) (ys : List ℚ) (y0 : ℚ) (d : ℚ),
      (x0 :: xs).length = (y0 :: ys).length →
      chainLt (x0 :: xs) → chainLt (y0 :: ys) →
      strictlyInside d (x0 :: xs) →
      ∃ g, findBracket d (x0 :: xs) (y0 :: ys) = some g ∧
        y0 < g ∧ g < lastD (y0 :: ys) ∧
        findBracket g (y0 :: ys) (x0 :: xs) = some d := by
  intro xs
  induction xs with
  | nil =>
    intro x0 ys y0 d _ _ _ hin
    exact absurd hin (strictlyInside_single d x0)
  | cons x1 xs ih =>
    intro x0 ys y0 d hlen hcx hcy hin
    cases ys with
    | nil => simp at hlen
    | cons y1 ys =>
      obtain ⟨h01x, hcx'⟩ := chainLt_cons.mp hcx
      obtain ⟨h01y, hcy'⟩ := chainLt_cons.mp hcy
      rcases strictlyInside_cons.mp hin with ⟨hl, hr⟩ | hin'
      · have hlo : y0 < linear_interpolate d x0 x1 y0 y1 :=
          linear_interpolate_gt_left h01x h01y hl
        have hhi : linear_interpolate d x0 x1 y0 y1 < y1 :=
          linear_interpolate_lt_right h01x h01y hr
        refine ⟨linear_interpolate d x0 x1 y0 y1, ?_, hlo, ?_, ?_⟩
        · rw [findBracket_cons, if_pos ⟨le_of_lt hl, le_of_lt hr⟩]
        · rw [lastD_cons]
          exact lt_of_lt_of_le hhi (chainLe_head_lastD ys y1 (chainLt_chainLe _ hcy'))
        · rw [findBracket_cons, if_pos ⟨le_of_lt hlo, le_of_lt hhi⟩,
            linear_interpolate_inverse d h01x h01y]
      · obtain ⟨g, hfb, hy1g, hglast, hrev⟩ := ih x1 ys y1 d (by simpa using hlen) hcx' hcy' hin'
        have hx1d : x1 < d := strictlyInside_head_lt xs x1 d hcx' hin'
        refine ⟨g, ?_, lt_trans h01y hy1g, ?_, ?_⟩
        · rw [findBracket_cons, if_neg (fun hc => absurd hc.2 (not_le.mpr hx1d))]
          exact hfb
        · rw [lastD_cons]
          exact hglast
        · rw [findBracket_cons, if_neg (fun hc => absurd hc.2 (not_le.mpr hy1g))]
          exact hrev

/-! ### Claim C4: monotonicity of depth_to_gallons -/

/-- C4 (counterexample): as stated the claim fails. On the reference table
the depth 1/2 lies in [0, height] yet depth_to_gallons returns none (the
table starts at depth 1 and the bracket search falls through below it); a
profile that is well-formed in the claim's sense but has a decreasing
volume table gives decreasing volumes; and a non-decreasing but negative
volume table gives a volume below the 0 returned at depth 0. -/
theorem C4_counterexample :
    depth_to_gallons (1/2) TANK_275_VERTICAL_OVAL = none
    ∧ (0 : ℚ) ≤ 1/2 ∧ (1/2 : ℚ) ≤ TANK_275_VERTICAL_OVAL.height_inches
    ∧ depth_to_gallons 1 profileDecreasingGallons = some 5
    ∧ depth_to_gallons 2 profileDecreasingGallons = some 2
    ∧ ¬ ((5 : ℚ) ≤ 2)
    ∧ depth_to_gallons 0 profileNegativeGallons = some 0
    ∧ depth_to_gallons 2 profileNegativeGallons = some (-2)
    ∧ ¬ ((0 : ℚ) ≤ -2) := by
  refine ⟨?_, by norm_num, by norm_num [TANK_275_VERTICAL_OVAL], ?_, ?_, by norm_num,
    ?_, ?_, by norm_num⟩
  · norm_num [depth_to_gallons, findBracket, linear_interpolate, lastD,
      TANK_275_VERTICAL_OVAL]
  · norm_num [depth_to_gallons, findBracket, linear_interpolate, lastD,
      profileDecreasingGallons]
  · norm_num [depth_to_gallons, lastD, profileDecreasingGallons]
  · norm_num [depth_to_gallons, profileNegativeGallons]
  · norm_num [depth_to_gallons, lastD, profileNegativeGallons]

/-- C4 (amended): for a profile whose depth table is strictly ascending and
paired 1:1 with a volume table of equal length (at least 2 points) that is
non-decreasing and starts non-negative, and for depths d1 <= d2 in
[0, height] that each avoid the uncovered gap strictly between 0 and the
first table depth, depth_to_gallons returns a volume for both and the
volumes are non-decreasing. -/
theorem C4_monotone_amended (p : TankProfile)
    (hx : chainLt p.depth_inches) (hy : chainLe p.gallons)
    (hlen : p.depth_inches.length = p.gallons.length)
    (h2 : 2 ≤ p.depth_inches.length)
    (hy0 : 0 ≤ headD p.gallons)
    (d1 d2 : ℚ) (hd1 : 0 ≤ d1) (hd2 : d2 ≤ p.height_inches) (hd : d1 ≤ d2)
    (hdom1 : d1 ≤ 0 ∨ headD p.depth_inches ≤ d1)
    (hdom2 : d2 ≤ 0 ∨ headD p.depth_inches ≤ d2) :
    ∃ v1 v2, depth_to_gallons d1 p = some v1 ∧ depth_to_gallons d2 p = some v2 ∧
      v1 ≤ v2 := by
  rcases hDL : p.depth_inches with _ | ⟨x0, _ | ⟨x1, xs⟩⟩
  · rw [hDL] at h2; norm_num at h2
  · rw [hDL] at h2; norm_num at h2
  rcases hGL : p.gallons with _ | ⟨y0, _ | ⟨y1, ys⟩⟩
  · rw [hDL, hGL] at hlen; norm_num at hlen
  · rw [hDL, hGL] at hlen; norm_num at hlen
  rw [hDL] at hx hdom1 hdom2
  rw [hGL] at hy hy0
  have hlen' : (x0 :: x1 :: xs).length = (y0 :: y1 :: ys).length := by
    rw [hDL, hGL] at hlen; exact hlen
  simp only [headD] at hdom1 hdom2 hy0
  have hYlast : y0 ≤ lastD (y0 :: y1 :: ys) := chainLe_head_lastD _ _ hy
  simp only [depth_to_gallons, hDL, hGL]
  by_cases h10 : d1 ≤ 0
  · rw [if_pos h10]
    by_cases h20 : d2 ≤ 0
    · rw [if_pos h20]
      exact ⟨0, 0, rfl, rfl, le_refl 0⟩
    · rw [if_neg h20]
      by_cases h2l : lastD (x0 :: x1 :: xs) ≤ d2
      · rw [if_pos h2l]
        exact ⟨0, lastD (y0 :: y1 :: ys), rfl, rfl, le_trans hy0 hYlast⟩
      · rw [if_neg h2l]
        have hx0d2 : x0 ≤ d2 := hdom2.resolve_left h20
        obtain ⟨v2, hv2⟩ :=
          findBracket_isSome (x1 :: xs) x0 (y1 :: ys) y0 d2 hlen' hx0d2 (lt_of_not_le h2l)
        have hlow : y0 ≤ v2 :=
          findBracket_ge_head (x1 :: xs) x0 (y1 :: ys) y0 d2 v2 hx hy hx0d2 hv2
        exact ⟨0, v2, rfl, hv2, le_trans hy0 hlow⟩
  · rw [if_neg h10]
    have h20 : ¬ d2 ≤ 0 := fun h => h10 (le_trans hd h)
    rw [if_neg h20]
    have hx0d1 : x0 ≤ d1 := hdom1.resolve_left h10
    have hx0d2 : x0 ≤ d2 := le_trans hx0d1 hd
    by_cases h1l : lastD (x0 :: x1 :: xs) ≤ d1
    · rw [if_pos h1l, if_pos (le_trans h1l hd)]
      exact ⟨_, _, rfl, rfl, le_refl _⟩
    · rw [if_neg h1l]
      obtain ⟨v1, hv1⟩ :=
        findBracket_isSome (x1 :: xs) x0 (y1 :: ys) y0 d1 hlen' hx0d1 (lt_of_not_le h1l)
      by_cases h2l : lastD (x0 :: x1 :: xs) ≤ d2
      · rw [if_pos h2l]
        have hup : v1 ≤ lastD (y0 :: y1 :: ys) :=
          findBracket_le_lastD (x1 :: xs) x0 (y1 :: ys) y0 d1 v1 hx hy hv1
        exact ⟨v1, _, hv1, rfl, hup⟩
      · rw [if_neg h2l]
        obtain ⟨v2, hv2⟩ :=
          findBracket_isSome (x1 :: xs) x0 (y1 :: ys) y0 d2 hlen' hx0d2 (lt_of_not_le h2l)
        exact ⟨v1, v2, hv1, hv2,
          findBracket_mono (x1 :: xs) x0 (y1 :: ys) y0 d1 d2 v1 v2 hx hy hx0d1 hd hv1 hv2⟩

/-- Witness: the amended monotonicity at the concrete pair 1 and 44 on the
reference table. -/
theorem C4_monotone_witness :
    ∃ v1 v2, depth_to_gallons 1 TANK_275_VERTICAL_OVAL = some v1 ∧
      depth_to_gallons 44 TANK_275_VERTICAL_OVAL = some v2 ∧ v1 ≤ v2 :=
  C4_monotone_amended TANK_275_VERTICAL_OVAL
    (by norm_num [chainLt, TANK_275_VERTICAL_OVAL])
    (by norm_num [chainLe, TANK_275_VERTICAL_OVAL])
    (by norm_num [TANK_275_VERTICAL_OVAL])
    (by norm_num [TANK_275_VERTICAL_OVAL])
    (by norm_num [headD, TANK_275_VERTICAL_OVAL])
    1 44 (by norm_num) (by norm_num [TANK_275_VERTICAL_OVAL]) (by norm_num)
    (Or.inr (by norm_num [headD, TANK_275_VERTICAL_OVAL]))
    (Or.inr (by norm_num [headD, TANK_275_VERTICAL_OVAL]))

/-! ### Claim C5: endpoints, capacity and saturation -/

/-- C5 (confirmed): for a well-formed profile (strictly ascending depth
table of at least two points, non-decreasing volume table, table spanning
up to the positive tank height, capacity equal to the last table volume),
depth_to_gallons is 0 at depth 0, equals the capacity at the tank height,
the capacity is the maximum table volume, and every depth at or beyond the
last table depth saturates at the capacity; on the reference table the
values at 50, 22.5 and 0 inches are 275, 140.5 and 0 gallons. -/
theorem C5_endpoints (p : TankProfile)
    (hx : chainLt p.depth_inches) (hy : chainLe p.gallons)
    (hlen : p.depth_inches.length = p.gallons.length)
    (h2 : 2 ≤ p.depth_inches.length)
    (hheight : p.height_inches = lastD p.depth_inches)
    (hpos : 0 < p.height_inches)
    (hcap : p.capacity_gallons = lastD p.gallons) :
    depth_to_gallons 0 p = some 0
    ∧ depth_to_gallons p.height_inches p = some p.capacity_gallons
    ∧ (∀ y ∈ p.gallons, y ≤ p.capacity_gallons)
    ∧ (∀ d : ℚ, p.height_inches ≤ d → depth_to_gallons d p = some p.capacity_gallons)
    ∧ depth_to_gallons 50 TANK_275_VERTICAL_OVAL = some 275
    ∧ depth_to_gallons (45/2) TANK_275_VERTICAL_OVAL = some (281/2)
    ∧ depth_to_gallons 0 TANK_275_VERTICAL_OVAL = some 0 := by
  have hsat : ∀ d : ℚ, p.height_inches ≤ d → depth_to_gallons d p = some p.capacity_gallons := by
    intro d hd
    have hdpos : 0 < d := lt_of_lt_of_le hpos hd
    rw [depth_to_gallons, if_neg (not_le.mpr hdpos), if_pos (by rw [← hheight]; exact hd), hcap]
  refine ⟨by simp [depth_to_gallons], hsat p.height_inches (le_refl _), ?_, hsat, ?_, ?_, ?_⟩
  · intro y hy'
    rw [hcap]
    exact chainLe_mem_lastD p.gallons hy y hy'
  · norm_num [depth_to_gallons, lastD, TANK_275_VERTICAL_OVAL]
  · norm_num [depth_to_gallons, findBracket, linear_interpolate, lastD,
      TANK_275_VERTICAL_OVAL]
  · norm_num [depth_to_gallons]

/-- Witness: the endpoint facts instantiated on the reference profile. -/
theorem C5_endpoints_witness :
    depth_to_gallons 0 TANK_275_VERTICAL_OVAL = some 0
    ∧ depth_to_gallons TANK_275_VERTICAL_OVAL.height_inches TANK_275_VERTICAL_OVAL =
        some TANK_275_VERTICAL_OVAL.capacity_gallons :=
  have h := C5_endpoints TANK_275_VERTICAL_OVAL
    (by norm_num [chainLt, TANK_275_VERTICAL_OVAL])
    (by norm_num [chainLe, TANK_275_VERTICAL_OVAL])
    (by norm_num [TANK_275_VERTICAL_OVAL])
    (by norm_num [TANK_275_VERTICAL_OVAL])
    (by norm_num [lastD, TANK_275_VERTICAL_OVAL])
    (by norm_num [TANK_275_VERTICAL_OVAL])
    (by norm_num [lastD, TANK_275_VERTICAL_OVAL])
  ⟨h.1, h.2.1⟩

/-! ### Claim C6: round trip through the reverse lookup -/

/-- C6 (confirmed): for a well-formed profile with strictly increasing
depth and volume tables of equal length starting at non-negative values,
and any depth strictly between two adjacent depth-table points, the volume
returned by depth_to_gallons maps back to exactly that depth under
gallons_to_depth (exact in rational arithmetic). -/
theorem C6_round_trip (p : TankProfile)
    (hx : chainLt p.depth_inches) (hy : chainLt p.gallons)
    (hlen : p.depth_inches.length = p.gallons.length)
    (hx0 : 0 ≤ headD p.depth_inches) (hy0 : 0 ≤ headD p.gallons)
    (d : ℚ) (hin : strictlyInside d p.depth_inches) :
    ∃ g, depth_to_gallons d p = some g ∧ gallons_to_depth g p = some d := by
  rcases hDL : p.depth_inches with _ | ⟨x0, _ | ⟨x1, xs⟩⟩
  · rw [hDL] at hin; exact absurd hin (fun h => h)
  · rw [hDL] at hin; exact absurd hin (strictlyInside_single d x0)
  rcases hGL : p.gallons with _ | ⟨y0, _ | ⟨y1, ys⟩⟩
  · rw [hDL, hGL] at hlen; norm_num at hlen
  · rw [hDL, hGL] at hlen; norm_num at hlen
  rw [hDL] at hx hx0 hin
  rw [hGL] at hy hy0
  have hlen' : (x0 :: x1 :: xs).length = (y0 :: y1 :: ys).length := by
    rw [hDL, hGL] at hlen; exact hlen
  simp only [headD] at hx0 hy0
  have hx0d : x0 < d := strictlyInside_head_lt (x1 :: xs) x0 d hx hin
  have hdlast : d < lastD (x0 :: x1 :: xs) := strictlyInside_lt_lastD (x1 :: xs) x0 d hx hin
  obtain ⟨g, hfb, hy0g, hglast, hrev⟩ :=
    findBracket_round_trip (x1 :: xs) x0 (y1 :: ys) y0 d hlen' hx hy hin
  refine ⟨g, ?_, ?_⟩
  · simp only [depth_to_gallons, hDL, hGL]
    rw [if_neg (not_le.mpr (lt_of_le_of_lt hx0 hx0d)), if_neg (not_le.mpr hdlast)]
    exact hfb
  · simp only [gallons_to_depth, hDL, hGL]
    rw [if_neg (not_le.mpr (lt_of_le_of_lt hy0 hy0g)), if_neg (not_le.mpr hglast)]
    exact hrev

/-- Witness: the round trip at depth 1.5 on the reference table. -/
theorem C6_round_trip_witness :
    ∃ g, depth_to_gallons (3/2) TANK_275_VERTICAL_OVAL = some g ∧
      gallons_to_depth g TANK_275_VERTICAL_OVAL = some (3/2) :=
  C6_round_trip TANK_275_VERTICAL_OVAL
    (by norm_num [chainLt, TANK_275_VERTICAL_OVAL])
    (by norm_num [chainLt, TANK_275_VERTICAL_OVAL])
    (by norm_num [TANK_275_VERTICAL_OVAL])
    (by norm_num [headD, TANK_275_VERTICAL_OVAL])
    (by norm_num [headD, TANK_275_VERTICAL_OVAL])
    (3/2)
    (by norm_num [strictlyInside, TANK_275_VERTICAL_OVAL])

/-! ### Claim C7: sensor sample validation -/

/-- C7 (counterexample): a sample of exactly 8000 mm passes validation but
does not always produce a Reading. With the reference profile and a tank
of height 315 inches (offset 0, empty level 0) the clamped depth 5/127
inch falls strictly between 0 and the first table depth, the gallons
lookup returns none, and read_tank_level returns none. -/
theorem C7_counterexample :
    read_tank_level (some 8000) ⟨315, 0, 0⟩ (some TANK_275_VERTICAL_OVAL) = none := by
  norm_num [read_tank_level, SENSOR_MIN_READING_MM, SENSOR_MAX_READING_MM, MM_TO_INCHES,
    depth_to_gallons, findBracket, lastD, TANK_275_VERTICAL_OVAL, min_def, max_def]

/-- C7 (amended): read_tank_level rejects a missing sample, a sample at or
below SENSOR_MIN_READING_MM = 0 and a sample strictly above
SENSOR_MAX_READING_MM = 8000, producing no Reading; a sample of exactly
8000 passes validation and produces a Reading in linear mode (no profile)
and, with a profile, whenever the volume lookup at the clamped depth is
defined; with a profile of positive capacity an undefined lookup yields
None — in particular, for any configuration whose clamped depth falls
strictly between 0 and the first table depth, the valid 8000 mm sample
produces no Reading. -/
theorem C7_validation :
    (∀ (d : ℚ) (cfg : TankConfig) (profile : Option TankProfile),
        d ≤ 0 ∨ 8000 < d → read_tank_level (some d) cfg profile = none)
    ∧ (∀ (cfg : TankConfig) (profile : Option TankProfile),
        read_tank_level none cfg profile = none)
    ∧ (∀ cfg : TankConfig, (read_tank_level (some 8000) cfg none).isSome = true)
    ∧ (∀ (cfg : TankConfig) (p : TankProfile),
        (depth_to_gallons (clamped_depth 8000 cfg) p).isSome = true →
        (read_tank_level (some 8000) cfg (some p)).isSome = true)
    ∧ (∀ (cfg : TankConfig) (p : TankProfile),
        0 < p.capacity_gallons →
        depth_to_gallons (clamped_depth 8000 cfg) p = none →
        read_tank_level (some 8000) cfg (some p) = none)
    ∧ (∀ (cfg : TankConfig) (p : TankProfile),
        chainLt p.depth_inches →
        0 < p.capacity_gallons →
        0 < clamped_depth 8000 cfg →
        clamped_depth 8000 cfg < headD p.depth_inches →
        read_tank_level (some 8000) cfg (some p) = none) := by
  have key : ∀ (cfg : TankConfig) (p : TankProfile),
      0 < p.capacity_gallons →
      depth_to_gallons (clamped_depth 8000 cfg) p = none →
      read_tank_level (some 8000) cfg (some p) = none := by
    intro cfg p hcap hdg
    simp only [clamped_depth] at hdg
    norm_num [read_tank_level, SENSOR_MIN_READING_MM, SENSOR_MAX_READING_MM, hdg, hcap]
  refine ⟨?_, fun _ _ => rfl, ?_, ?_, key, ?_⟩
  · intro d cfg profile h
    simp only [read_tank_level, SENSOR_MIN_READING_MM, SENSOR_MAX_READING_MM]
    rw [if_pos h]
  · intro cfg
    simp only [read_tank_level, SENSOR_MIN_READING_MM, SENSOR_MAX_READING_MM]
    rw [if_neg (by norm_num)]
    rfl
  · intro cfg p h
    rw [Option.isSome_iff_exists] at h
    obtain ⟨g, hg⟩ := h
    simp only [clamped_depth] at hg
    by_cases hcap : 0 < p.capacity_gallons
    · norm_num [read_tank_level, SENSOR_MIN_READING_MM, SENSOR_MAX_READING_MM, hg, hcap]
    · norm_num [read_tank_level, SENSOR_MIN_READING_MM, SENSOR_MAX_READING_MM, hg, hcap]
  · intro cfg p hchain hcap hpos hlt
    refine key cfg p hcap ?_
    rcases hpd : p.depth_inches with _ | ⟨x0, xs⟩
    · rw [hpd] at hlt
      simp only [headD] at hlt
      exact absurd (lt_trans hpos hlt) (lt_irrefl 0)
    · have hx0 : clamped_depth 8000 cfg < x0 := by
        rw [hpd] at hlt
        simpa [headD] using hlt
      have hchain' : chainLt (x0 :: xs) := by
        rw [hpd] at hchain
        exact hchain
      have hlastge : x0 ≤ lastD (x0 :: xs) :=
        chainLe_head_lastD xs x0 (chainLt_chainLe _ hchain')
      unfold depth_to_gallons
      rw [hpd, if_neg (not_le.mpr hpos),
        if_neg (not_le.mpr (lt_of_lt_of_le hx0 hlastge))]
      exact findBracket_none_of_lt_head xs x0 p.gallons (clamped_depth 8000 cfg) hchain' hx0

/-- Witness: validation at the concrete samples 0, 8001 and 8000, Reading
production at 8000 with the reference profile and a 44 inch tank, and the
None result at 8000 with the reference profile and a 315 inch tank whose
clamped depth 5/127 falls below the first table depth. -/
theorem C7_validation_witness :
    read_tank_level (some 0) ⟨44, 0, 0⟩ none = none
    ∧ read_tank_level (some 8001) ⟨44, 0, 0⟩ (some TANK_275_VERTICAL_OVAL) = none
    ∧ (read_tank_level (some 8000) ⟨44, 0, 0⟩ none).isSome = true
    ∧ (read_tank_level (some 8000) ⟨44, 0, 0⟩ (some TANK_275_VERTICAL_OVAL)).isSome = true
    ∧ read_tank_level (some 8000) ⟨315, 0, 0⟩ (some TANK_275_VERTICAL_OVAL) = none :=
  ⟨C7_validation.1 0 _ _ (Or.inl (by norm_num)),
   C7_validation.1 8001 _ _ (Or.inr (by norm_num)),
   C7_validation.2.2.1 _,
   C7_validation.2.2.2.1 _ _ (by
     norm_num [clamped_depth, depth_to_gallons, MM_TO_INCHES, min_def, max_def,
       TANK_275_VERTICAL_OVAL]),
   C7_validation.2.2.2.2.2 _ _
     (by norm_num [chainLt, TANK_275_VERTICAL_OVAL])
     (by norm_num [TANK_275_VERTICAL_OVAL])
     (by norm_num [clamped_depth, MM_TO_INCHES, min_def, max_def])
     (by norm_num [clamped_depth, headD, MM_TO_INCHES, min_def, max_def,
       TANK_275_VERTICAL_OVAL])⟩

/-! ### Claim C10: calibration failure path -/

/-- C10 (confirmed): when fewer valid readings than num_readings div 2 are
collected, calibrate_empty returns False and the configuration (hence the
persisted calibration offset) is exactly the configuration on entry. -/
theorem C10_calibration_guard (samples : List (Option ℚ)) (num_readings : ℕ)
    (cfg : TankConfig)
    (h : (samples.filterMap (fun s =>
        s.bind (fun d => if 0 < d then some d else none))).length < num_readings / 2) :
    calibrate_empty samples num_readings cfg = (false, cfg) := by
  simp only [calibrate_empty]
  rw [if_pos h]

/-- Witness: ten requested readings, one valid sample collected. -/
theorem C10_calibration_guard_witness :
    calibrate_empty [none, some 0, some 500] 10 ⟨44, 0, 0⟩ = (false, ⟨44, 0, 0⟩) :=
  C10_calibration_guard _ _ _ (by norm_num [List.filterMap, Option.bind])

/-! ### Claims C1 and C2: fault counters of the monitor loop -/

/-- C1 (counterexample): the loop does not keep two independent per-domain
counters. Five sensor-read failures followed by five connectivity-check
failures drive the single shared counter to the ceiling and restart the
device, while the specification's two-counter policy would hold each
domain at five failures with no restart. -/
theorem C1_counterexample :
    runCycles ⟨0, false⟩
        (List.replicate 5 CycleOutcome.sensorFail ++ List.replicate 5 CycleOutcome.wifiFail)
      = ⟨10, true⟩
    ∧ runSpecCycles ⟨0, 0, false⟩
        (List.replicate 5 CycleOutcome.sensorFail ++ List.replicate 5 CycleOutcome.wifiFail)
      = ⟨5, 5, false⟩ := by decide

/-- C1 (amended): the loop maintains a single shared consecutive-failure
counter: a connectivity-check failure and a sensor-read failure each
increment the same counter by one, and a cycle with a valid sensor reading
resets it to 0; a successful connectivity check alone does not reset it. -/
theorem C1_single_counter (s : LoopState) (h : s.restarted = false) :
    (cycleStep s CycleOutcome.wifiFail).failures = s.failures + 1
    ∧ (cycleStep s CycleOutcome.sensorFail).failures = s.failures + 1
    ∧ cycleStep s CycleOutcome.sensorOk = ⟨0, false⟩ := by
  simp [cycleStep, h]

/-- Witness: the shared counter at the concrete state with three failures. -/
theorem C1_single_counter_witness :
    (cycleStep ⟨3, false⟩ CycleOutcome.wifiFail).failures = 3 + 1
    ∧ (cycleStep ⟨3, false⟩ CycleOutcome.sensorFail).failures = 3 + 1
    ∧ cycleStep ⟨3, false⟩ CycleOutcome.sensorOk = ⟨0, false⟩ :=
  C1_single_counter ⟨3, false⟩ rfl

theorem cycleStep_frozen (s : LoopState) (o : CycleOutcome) (h : s.restarted = true) :
    cycleStep s o = s := by
  simp [cycleStep, h]

theorem runCycles_frozen :
    ∀ (l : List CycleOutcome) (s : LoopState), s.restarted = true → runCycles s l = s := by
  intro l
  induction l with
  | nil => intro s _; rfl
  | cons o l ih =>
    intro s h
    show List.foldl cycleStep (cycleStep s o) l = s
    rw [cycleStep_frozen s o h]
    exact ih s h

theorem runCycles_allFail_lt :
    ∀ (l : List CycleOutcome) (k : ℕ), (∀ o ∈ l, o ≠ CycleOutcome.sensorOk) →
      k + l.length < MAX_CONSECUTIVE_FAILURES →
      runCycles ⟨k, false⟩ l = ⟨k + l.length, false⟩ := by
  intro l
  induction l with
  | nil => intro k _ _; simp [runCycles]
  | cons o l ih =>
    intro k hall hk
    have ho : o ≠ CycleOutcome.sensorOk := hall o (List.mem_cons_self o l)
    have hlt : ¬ (MAX_CONSECUTIVE_FAILURES ≤ k + 1) := by
      simp only [List.length_cons, MAX_CONSECUTIVE_FAILURES] at hk ⊢
      omega
    have hstep : cycleStep ⟨k, false⟩ o = ⟨k + 1, false⟩ := by
      cases o with
      | wifiFail => simp [cycleStep, decide_eq_false hlt]
      | sensorFail => simp [cycleStep, decide_eq_false hlt]
      | sensorOk => exact absurd rfl ho
    have htail : runCycles ⟨k + 1, false⟩ l = ⟨k + 1 + l.length, false⟩ := by
      refine ih (k + 1) (fun o' ho' => hall o' (List.mem_cons_of_mem o ho')) ?_
      simp only [List.length_cons] at hk
      omega
    show List.foldl cycleStep (cycleStep ⟨k, false⟩ o) l = ⟨k + (o :: l).length, false⟩
    rw [hstep]
    rw [show runCycles ⟨k + 1, false⟩ l = List.foldl cycleStep ⟨k + 1, false⟩ l from rfl] at htail
    rw [htail]
    simp only [List.length_cons]
    congr 1
    omega

theorem runCycles_allFail_restart :
    ∀ (l : List CycleOutcome) (k : ℕ), (∀ o ∈ l, o ≠ CycleOutcome.sensorOk) →
      k + l.length = MAX_CONSECUTIVE_FAILURES → k < MAX_CONSECUTIVE_FAILURES →
      (runCycles ⟨k, false⟩ l).restarted = true := by
  intro l
  induction l with
  | nil =>
    intro k _ hk hklt
    simp only [List.length_nil, Nat.add_zero] at hk
    omega
  | cons o l ih =>
    intro k hall hk hklt
    have ho : o ≠ CycleOutcome.sensorOk := hall o (List.mem_cons_self o l)
    by_cases hceil : MAX_CONSECUTIVE_FAILURES ≤ k + 1
    · have hstep : cycleStep ⟨k, false⟩ o = ⟨k + 1, true⟩ := by
        cases o with
        | wifiFail => simp [cycleStep, decide_eq_true hceil]
        | sensorFail => simp [cycleStep, decide_eq_true hceil]
        | sensorOk => exact absurd rfl ho
      show (List.foldl cycleStep (cycleStep ⟨k, false⟩ o) l).restarted = true
      rw [hstep]
      rw [show List.foldl cycleStep (⟨k + 1, true⟩ : LoopState) l
            = runCycles ⟨k + 1, true⟩ l from rfl]
      rw [runCycles_frozen l ⟨k + 1, true⟩ rfl]
    · have hstep : cycleStep ⟨k, false⟩ o = ⟨k + 1, false⟩ := by
        cases o with
        | wifiFail => simp [cycleStep, decide_eq_false hceil]
        | sensorFail => simp [cycleStep, decide_eq_false hceil]
        | sensorOk => exact absurd rfl ho
      show (List.foldl cycleStep (cycleStep ⟨k, false⟩ o) l).restarted = true
      rw [hstep]
      refine ih (k + 1) (fun o' ho' => hall o' (List.mem_cons_of_mem o ho')) ?_ ?_
      · simp only [List.length_cons] at hk
        omega
      · omega

/-- C2 (counterexample): as stated per failure domain the claim fails.
After nine connectivity-check failures, a cycle whose connectivity check
succeeds but whose sensor read fails restarts the device: under the
specification's two-counter policy the connectivity success would have
reset that domain's counter (leaving counters at 1 and 0, no restart), yet
the implementation restarts because both domains share one counter. -/
theorem C2_counterexample :
    (runCycles ⟨0, false⟩
        (List.replicate 9 CycleOutcome.wifiFail ++ [CycleOutcome.sensorFail])).restarted = true
    ∧ runSpecCycles ⟨0, 0, false⟩
        (List.replicate 9 CycleOutcome.wifiFail ++ [CycleOutcome.sensorFail])
      = ⟨1, 0, false⟩ := by decide

/-- C2 (amended): for the single shared counter, starting from a reset
state, after exactly 9 consecutive failure cycles (connectivity-check or
sensor-read failures in any mix) no restart is triggered and the counter
reads 9; on the 10th consecutive failure cycle the restart triggers; and a
cycle with a valid sensor reading resets the counter to 0. -/
theorem C2_ceiling :
    (∀ l : List CycleOutcome, (∀ o ∈ l, o ≠ CycleOutcome.sensorOk) → l.length = 9 →
        runCycles ⟨0, false⟩ l = ⟨9, false⟩)
    ∧ (∀ l : List CycleOutcome, (∀ o ∈ l, o ≠ CycleOutcome.sensorOk) → l.length = 10 →
        (runCycles ⟨0, false⟩ l).restarted = true)
    ∧ (∀ s : LoopState, s.restarted = false → cycleStep s CycleOutcome.sensorOk = ⟨0, false⟩) := by
  refine ⟨?_, ?_, ?_⟩
  · intro l hall hlen
    have := runCycles_allFail_lt l 0 hall (by rw [hlen]; norm_num [MAX_CONSECUTIVE_FAILURES])
    rw [this, hlen]
  · intro l hall hlen
    exact runCycles_allFail_restart l 0 hall
      (by simp [hlen, MAX_CONSECUTIVE_FAILURES]) (by norm_num [MAX_CONSECUTIVE_FAILURES])
  · intro s h
    simp [cycleStep, h]

/-- Witness: nine sensor failures leave the counter at 9 without restart,
ten connectivity failures restart, and a valid reading resets. -/
theorem C2_ceiling_witness :
    runCycles ⟨0, false⟩ (List.replicate 9 CycleOutcome.sensorFail) = ⟨9, false⟩
    ∧ (runCycles ⟨0, false⟩ (List.replicate 10 CycleOutcome.wifiFail)).restarted = true
    ∧ cycleStep ⟨4, false⟩ CycleOutcome.sensorOk = ⟨0, false⟩ :=
  ⟨C2_ceiling.1 _ (by decide) (by decide),
   C2_ceiling.2.1 _ (by decide) (by decide),
   C2_ceiling.2.2 _ rfl⟩

/-! ### Claims C3 and C9: restart cooldown -/

/-- C3 (confirmed): once the failure ceiling is reached, if less than the
60 second cooldown has elapsed since the previous forced restart, the
escalation sleeps exactly the remaining portion of the cooldown and then
resets; otherwise it resets at once; in all cases the reset is the last
action and is never skipped. -/
theorem C3_cooldown (failures : ℕ) (now lastRestart : ℚ)
    (hf : MAX_CONSECUTIVE_FAILURES ≤ failures) :
    MonEv.reset ∈ failEscalation failures now lastRestart
    ∧ (failEscalation failures now lastRestart).getLast? = some MonEv.reset
    ∧ (now - lastRestart < RESTART_COOLDOWN_SEC →
        failEscalation failures now lastRestart =
          [MonEv.sleep (RESTART_COOLDOWN_SEC - (now - lastRestart)), MonEv.reset])
    ∧ (RESTART_COOLDOWN_SEC ≤ now - lastRestart →
        failEscalation failures now lastRestart = [MonEv.reset]) := by
  unfold failEscalation restartEscalation
  rw [if_pos hf]
  by_cases hcd : now - lastRestart < RESTART_COOLDOWN_SEC
  · rw [if_pos hcd]
    exact ⟨by simp, by simp, fun _ => rfl, fun h => absurd hcd (not_lt.mpr h)⟩
  · rw [if_neg hcd]
    exact ⟨by simp, by simp, fun h => absurd h hcd, fun _ => rfl⟩

/-- Witness: with 30 of the 60 second cooldown elapsed the escalation
sleeps the remaining 30 seconds and then resets. -/
theorem C3_cooldown_witness :
    failEscalation 10 30 0 = [MonEv.sleep (RESTART_COOLDOWN_SEC - (30 - 0)), MonEv.reset]
    ∧ MonEv.reset ∈ failEscalation 10 30 0 :=
  have h := C3_cooldown 10 30 0 (by norm_num [MAX_CONSECUTIVE_FAILURES])
  ⟨h.2.2.1 (by norm_num [RESTART_COOLDOWN_SEC]), h.1⟩

/-- C9 (counterexample): the cooldown wait does not feed the watchdog. At
the first escalation (last restart time 0, current time 0) the full 60
second cooldown is slept in one uninterrupted sleep followed by the reset,
and no feed event occurs anywhere in the escalation, contradicting the
claim that a feed occurs within the wait. -/
theorem C9_counterexample :
    failEscalation 10 0 0 = [MonEv.sleep 60, MonEv.reset]
    ∧ MonEv.feed ∉ failEscalation 10 0 0 := by
  constructor
  · norm_num [failEscalation, restartEscalation, MAX_CONSECUTIVE_FAILURES,
      RESTART_COOLDOWN_SEC]
  · norm_num [failEscalation, restartEscalation, MAX_CONSECUTIVE_FAILURES,
      RESTART_COOLDOWN_SEC]
    exact ⟨nofun, nofun⟩

/-- C9 (amended): no watchdog feed occurs anywhere in the restart
escalation: when the cooldown is active the escalation is exactly one
sleep of the full remaining cooldown followed by the reset, with no feed
inside the wait (the preceding feeds happen earlier in the cycle). -/
theorem C9_no_feed_in_cooldown (failures : ℕ) (now lastRestart : ℚ) :
    MonEv.feed ∉ failEscalation failures now lastRestart
    ∧ (MAX_CONSECUTIVE_FAILURES ≤ failures → now - lastRestart < RESTART_COOLDOWN_SEC →
        failEscalation failures now lastRestart =
          [MonEv.sleep (RESTART_COOLDOWN_SEC - (now - lastRestart)), MonEv.reset]) := by
  unfold failEscalation restartEscalation
  by_cases hf : MAX_CONSECUTIVE_FAILURES ≤ failures
  · rw [if_pos hf]
    by_cases hcd : now - lastRestart < RESTART_COOLDOWN_SEC
    · rw [if_pos hcd]
      exact ⟨by simp, fun _ _ => rfl⟩
    · rw [if_neg hcd]
      exact ⟨by simp, fun _ h => absurd h hcd⟩
  · rw [if_neg hf]
    exact ⟨by simp, fun h => absurd h hf⟩

/-- Witness: the feed-free escalation with 20 seconds elapsed. -/
theorem C9_no_feed_in_cooldown_witness :
    MonEv.feed ∉ failEscalation 10 20 0
    ∧ failEscalation 10 20 0 =
        [MonEv.sleep (RESTART_COOLDOWN_SEC - (20 - 0)), MonEv.reset] :=
  have h := C9_no_feed_in_cooldown 10 20 0
  ⟨h.1, h.2 (by norm_num [MAX_CONSECUTIVE_FAILURES]) (by norm_num [RESTART_COOLDOWN_SEC])⟩

/-! ### Claim C8: publish cadence -/

theorem publishCond_iff (t0 : ℚ) (q r k : ℕ) (hk : k = 6 * q + r + 1) (hr : r < 6) :
    ((30 : ℚ) ≤ (t0 + 5 * (k : ℚ)) - (t0 + 30 * (q : ℚ))) ↔ r = 5 := by
  have hkQ : (k : ℚ) = 6 * (q : ℚ) + (r : ℚ) + 1 := by exact_mod_cast hk
  rw [hkQ]
  constructor
  · intro hc
    by_contra hne
    have hr4 : (r : ℚ) ≤ 4 := by exact_mod_cast (by omega : r ≤ 4)
    linarith
  · intro hr5
    have : (r : ℚ) = 5 := by exact_mod_cast hr5
    linarith

theorem lastPublishBefore_closed (lp0 t0 : ℚ) (h : 30 ≤ t0 - lp0) :
    ∀ k : ℕ, lastPublishBefore 30 lp0 t0 5 k =
      if k = 0 then lp0 else t0 + 30 * (((k - 1) / 6 : ℕ) : ℚ) := by
  intro k
  induction k with
  | zero => rfl
  | succ k ih =>
    simp only [lastPublishBefore]
    rw [ih]
    rcases Nat.eq_zero_or_pos k with rfl | hk
    · rw [if_pos rfl, publishStep, if_pos (by push_cast; linarith),
        if_neg (Nat.succ_ne_zero 0)]
      norm_num
    · rw [if_neg (Nat.pos_iff_ne_zero.mp hk)]
      have hdm : 6 * ((k - 1) / 6) + (k - 1) % 6 = k - 1 := Nat.div_add_mod (k - 1) 6
      have hr6 : (k - 1) % 6 < 6 := Nat.mod_lt _ (by norm_num)
      have hk1 : k = 6 * ((k - 1) / 6) + (k - 1) % 6 + 1 := by omega
      rw [publishStep, if_neg (Nat.succ_ne_zero k)]
      by_cases hr5 : (k - 1) % 6 = 5
      · rw [if_pos ((publishCond_iff t0 ((k - 1) / 6) ((k - 1) % 6) k hk1 hr6).mpr hr5)]
        have hk6 : k = 6 * ((k - 1) / 6) + 6 := by omega
        have hdiv : (k + 1 - 1) / 6 = (k - 1) / 6 + 1 := by omega
        rw [hdiv]
        have hcast : (k : ℚ) = 6 * (((k - 1) / 6 : ℕ) : ℚ) + 6 := by exact_mod_cast hk6
        rw [hcast]
        push_cast
        ring
      · rw [if_neg (fun hc =>
          hr5 ((publishCond_iff t0 ((k - 1) / 6) ((k - 1) % 6) k hk1 hr6).mp hc))]
        have hdiv : (k + 1 - 1) / 6 = (k - 1) / 6 := by omega
        rw [hdiv]

/-- C8 (confirmed): a cycle's reading is published exactly when the time
elapsed since the last successful publish is at least publish_interval;
with measurement_interval 5 s and publish_interval 30 s, cycles at times
t0 + 5k (all readings valid, all publishes successful, the first cycle
already due), the cycles that publish are exactly those with k divisible
by 6: one publish per six sensor reads, one broker message per 30 second
window. -/
theorem C8_publish_gating (lp0 t0 : ℚ) (h : 30 ≤ t0 - lp0) :
    (∀ publish_interval lp now : ℚ,
        (publish_interval ≤ now - lp → publishStep publish_interval lp now = now)
        ∧ (now - lp < publish_interval → publishStep publish_interval lp now = lp))
    ∧ ∀ k : ℕ, publishesAt 30 lp0 t0 5 k ↔ k % 6 = 0 := by
  constructor
  · intro publish_interval lp now
    constructor
    · intro hle
      rw [publishStep, if_pos hle]
    · intro hlt
      rw [publishStep, if_neg (not_le.mpr hlt)]
  · intro k
    unfold publishesAt
    rw [lastPublishBefore_closed lp0 t0 h k]
    rcases Nat.eq_zero_or_pos k with rfl | hk
    · rw [if_pos rfl]
      constructor
      · intro _
        rfl
      · intro _
        push_cast
        linarith
    · rw [if_neg (Nat.pos_iff_ne_zero.mp hk)]
      have hdm : 6 * ((k - 1) / 6) + (k - 1) % 6 = k - 1 := Nat.div_add_mod (k - 1) 6
      have hr6 : (k - 1) % 6 < 6 := Nat.mod_lt _ (by norm_num)
      have hk1 : k = 6 * ((k - 1) / 6) + (k - 1) % 6 + 1 := by omega
      rw [publishCond_iff t0 ((k - 1) / 6) ((k - 1) % 6) k hk1 hr6]
      omega

/-- Witness: with the first cycle due at time 30, cycle 6 publishes and
cycle 3 does not. -/
theorem C8_publish_gating_witness :
    publishesAt 30 0 30 5 6 ∧ ¬ publishesAt 30 0 30 5 3 := by
  have h := C8_publish_gating 0 30 (by norm_num)
  refine ⟨(h.2 6).mpr (by norm_num), fun hp => ?_⟩
  have := (h.2 3).mp hp
  norm_num at this
